import Mathlib

/-!
Shallow embedding of `scripts/mt_to_vcf.py`: a pipeline that converts a
multi-sample Hail matrix table into a sites-only VCF.  Rows are keyed by
(locus, allele list); columns are samples; entries hold a per-sample genotype
call `GT` (possibly missing) and a per-sample read depth `DP` (possibly
missing).  The embedding materializes every entry, so the matrix table is the
densified view of the data.
-/

namespace MtToVcf

/-- A genomic locus: contig name and position. -/
structure Locus where
  contig : String
  position : Nat
deriving DecidableEq

/-- A genotype call: the list of allele indices carried by the sample
(0 is the reference allele). -/
abbrev Call := List Nat

/-- Hail `Call.is_non_ref`: true when at least one allele of the call is
non-reference. -/
def Call.isNonRef (c : Call) : Bool := c.any (fun a => a ≠ 0)

/-- One matrix-table entry: per-(locus, sample) genotype call and read depth,
either of which may be missing. -/
structure Entry where
  GT : Option Call
  DP : Option Nat
deriving DecidableEq

/-- A matrix-table row: key fields (locus, alleles) plus one entry per sample. -/
structure MTRow where
  locus : Locus
  alleles : List String
  entries : List Entry
deriving DecidableEq

/-- The row key of a matrix table / info table: locus plus allele list. -/
structure RowKey where
  locus : Locus
  alleles : List String
deriving DecidableEq

def MTRow.key (r : MTRow) : RowKey := ⟨r.locus, r.alleles⟩

/-- A multi-sample matrix table: column (sample) keys and rows. -/
structure MatrixTable where
  cols : List String
  rows : List MTRow
deriving DecidableEq

/-- Hail `hl.experimental.densify`: converts the sparse physical entry
representation into a fully materialized one.  The embedding's `MatrixTable`
already materializes every (locus, sample) entry, so densification is the
identity on the logical content modelled here. -/
def densify (mt : MatrixTable) : MatrixTable := mt

/-- `hl.is_defined(mt.GT)` for one entry. -/
def Entry.gtDefined (e : Entry) : Bool := e.GT.isSome

/-- `mt.GT.is_non_ref()` for one entry, with a missing call contributing
false to the row-level `hl.agg.any` (missing predicate values never satisfy
the filter). -/
def Entry.nonRefCall (e : Entry) : Bool := (e.GT.map Call.isNonRef).getD false

/-- The row-filter predicate of `_filter_rows_and_add_tags`:
`(hl.len(mt.alleles) > 1) & (hl.agg.any(mt.GT.is_non_ref()))`. -/
def keepRow (r : MTRow) : Bool :=
  decide (1 < r.alleles.length) && r.entries.any Entry.nonRefCall

/-- `hl.agg.sum(mt.DP)` over the row's entries: missing depths are skipped,
i.e. contribute zero. -/
def siteDpAgg (r : MTRow) : Nat := (r.entries.map (fun e => e.DP.getD 0)).sum

/-- `hl.agg.count_where(hl.is_defined(mt.GT)) * 2` over the row's entries. -/
def ansAgg (r : MTRow) : Nat := (r.entries.countP Entry.gtDefined) * 2

/-- A matrix-table row after `_filter_rows_and_add_tags`: the original row
plus the two row annotations `site_dp` and `ANS`. -/
structure TaggedRow where
  locus : Locus
  alleles : List String
  entries : List Entry
  site_dp : Nat
  ANS : Nat
deriving DecidableEq

def TaggedRow.key (r : TaggedRow) : RowKey := ⟨r.locus, r.alleles⟩

/-- `annotate_rows(site_dp=...)` followed by `annotate_rows(ANS=...)` on one
row. -/
def tagRow (r : MTRow) : TaggedRow :=
  ⟨r.locus, r.alleles, r.entries, siteDpAgg r, ansAgg r⟩

/-- The matrix table after `_filter_rows_and_add_tags` (same columns,
filtered and annotated rows). -/
structure TaggedMT where
  cols : List String
  rows : List TaggedRow
deriving DecidableEq

/-- `_filter_rows_and_add_tags`: densify, filter to non-reference sites,
annotate `site_dp` and `ANS`. -/
def _filter_rows_and_add_tags (mt : MatrixTable) : TaggedMT :=
  { cols := (densify mt).cols
    rows := ((densify mt).rows.filter keepRow).map tagRow }

/-- The `info` struct of an info-table row: the depth field `DP` (optional,
as it comes from an optional join), the site annotation `ANS`, and the
remaining INFO fields produced by the external aggregator, kept abstract as
named integer fields. -/
structure InfoStruct where
  DP : Option Nat
  ANS : Nat
  fields : List (String × Int)
deriving DecidableEq

/-- One row of the info table: its row key, its `info` struct, and the
non-info row fields produced by the external aggregator (abstract). -/
structure InfoRow where
  key : RowKey
  info : InfoStruct
  rest : List (String × Int)
deriving DecidableEq

/-- The info table: rows plus the physical partition count of the output. -/
structure InfoTable where
  rows : List InfoRow
  nPartitions : Nat
deriving DecidableEq

/-- The content the external aggregator chooses for one row, given the whole
matrix table and the row's key: its own DP value, the other INFO fields, and
the non-info row fields.  Kept abstract: the claims hold for every choice. -/
abbrev AggModel := TaggedMT → RowKey → Option Nat × List (String × Int) × List (String × Int)

/-- Modelled from the spec: `gnomad.utils.sparse_mt.default_compute_info`
(external library, not under the repository sources) produces one output row
per input row, keyed identically; with `site_annotations` set it carries the
site-level annotations (here `ANS`) into the info struct; the partition count
is a tuning parameter that controls physical chunk granularity of the output,
not its content. -/
def default_compute_info (agg : AggModel) (mt : TaggedMT)
    (site_annotations : Bool) (n_partitions : Nat) : InfoTable :=
  { rows := mt.rows.map (fun r =>
      { key := r.key
        info := { DP := (agg mt r.key).1
                  ANS := r.ANS
                  fields := (agg mt r.key).2.1 }
        rest := (agg mt r.key).2.2 })
    nPartitions := n_partitions }

/-- The keyed join `mt.rows()[k]`: the row of the table with key `k`,
missing when no row has that key. -/
def rowsLookup (rows : List TaggedRow) (k : RowKey) : Option TaggedRow :=
  rows.find? (fun r => r.key == k)

/-- `_create_info_ht`: delegate to `default_compute_info`, then overwrite
`info.DP` with the row's `site_dp`, joined by row key. -/
def _create_info_ht (agg : AggModel) (mt : TaggedMT) (n_partitions : Nat) :
    InfoTable :=
  let info_ht := default_compute_info agg mt true n_partitions
  { info_ht with
    rows := info_ht.rows.map (fun r =>
      { r with info :=
        { r.info with DP := (rowsLookup mt.rows r.key).map TaggedRow.site_dp } }) }

/-- Modelled from the spec: `gnomad.utils.vcf.adjust_vcf_incompatible_types`
(external library, not under the repository sources) rewrites field types
unsupported by the VCF format into exporter-compatible representations, with
the same row set and key; the embedding does not distinguish physical value
representations, so it is the identity on the modelled content. -/
def adjust_vcf_incompatible_types (ht : InfoTable) : InfoTable := ht

/-- `mt_to_sites_only_ht`: filter and tag rows, build the info table, adjust
types. -/
def mt_to_sites_only_ht (agg : AggModel) (mt : MatrixTable)
    (n_partitions : Nat) : InfoTable :=
  adjust_vcf_incompatible_types
    (_create_info_ht agg (_filter_rows_and_add_tags mt) n_partitions)

/-- One record of the exported variant-call file, at parsed granularity:
CHROM, POS, REF (the first allele), ALT (the remaining alleles), and the
INFO mapping. -/
structure VcfRecord where
  chrom : String
  pos : Nat
  ref : String
  alt : List String
  info : InfoStruct
deriving DecidableEq

/-- Modelled from the spec: `hl.export_vcf` (external library) writes one
variant-call record per table row, splitting the allele list into REF (first
allele) and ALT (rest) and serializing the info struct into the INFO column. -/
def export_vcf (ht : InfoTable) : List VcfRecord :=
  ht.rows.map (fun r =>
    { chrom := r.key.locus.contig
      pos := r.key.locus.position
      ref := r.key.alleles.headI
      alt := r.key.alleles.tail
      info := r.info })

/-- Re-parsing one record of the exported file back into a row key. -/
def parseRecordKey (v : VcfRecord) : RowKey :=
  ⟨⟨v.chrom, v.pos⟩, v.ref :: v.alt⟩

/-- `export_sites_only_vcf`: convert to the sites-only table and export it,
returning the output path (as the source does) together with the written
file content (modelled at record granularity). -/
def export_sites_only_vcf (agg : AggModel) (mt : MatrixTable)
    (output_path : String) (n_partitions : Nat) : String × List VcfRecord :=
  let ht := mt_to_sites_only_ht agg mt n_partitions
  (output_path, export_vcf ht)

/-- Modelled from the spec: `get_validation_callback(ext=mt, must_exist=True)`
from `joint_calling.utils` (not under the repository sources) validates the
`--mt` option before the command body runs: the path must carry the `.mt`
extension and a file must exist at the path.  `existing` models the set of
paths present on the filesystem. -/
def validateMtPath (existing : List String) (path : String) : Bool :=
  List.isSuffixOf ".mt".data path.data && existing.contains path

/-- The outcome of one CLI invocation: a usage error reported by option
validation, or a completed run with the path and content written. -/
inductive CliOutcome where
  | usageError (msg : String)
  | done (output_path : String) (written : List VcfRecord)
deriving DecidableEq

/-- `main`: validate the `--mt` option (a click callback, so it runs before
the command body), then load the matrix table and run the pipeline.
`tables` models `hl.read_matrix_table` as a map from paths to stored matrix
tables; `local_tmp_dir`, `overwrite` and `hail_billing` are accepted but not
consumed by the transformation logic, exactly as in the source. -/
def main (agg : AggModel) (existing : List String)
    (tables : String → MatrixTable) (mt_path : String) (output_path : String)
    (local_tmp_dir : String) (overwrite : Bool) (hail_billing : String)
    (n_partitions : Nat) : CliOutcome :=
  if validateMtPath existing mt_path then
    let mt := tables mt_path
    let res := export_sites_only_vcf agg mt output_path n_partitions
    CliOutcome.done res.1 res.2
  else
    CliOutcome.usageError "--mt: path does not exist or lacks the .mt extension"

/-- Example row for concrete instantiations: the 2-sample scenario row with
alleles A/G, depths 10 and 20, and both calls defined and non-reference. -/
def exRow : MTRow :=
  { locus := ⟨"chr1", 123⟩
    alleles := ["A", "G"]
    entries := [⟨some [0, 1], some 10⟩, ⟨some [1, 1], some 20⟩] }

/-- Example matrix table: two samples, one row (`exRow`). -/
def exMT : MatrixTable := { cols := ["s1", "s2"], rows := [exRow] }

/-- Example aggregator content: no DP of its own, no extra fields. -/
def exAgg : AggModel := fun _ _ => (none, [], [])

/-- The sites-only row the pipeline produces from `exMT` under `exAgg`. -/
def exOutRow : InfoRow :=
  { key := ⟨⟨"chr1", 123⟩, ["A", "G"]⟩
    info := { DP := some 30, ANS := 4, fields := [] }
    rest := [] }

section Lemmas

/-- An entry satisfies the non-reference test iff its call is defined and
non-reference. -/
theorem nonRefCall_iff (e : Entry) :
    e.nonRefCall = true ↔ ∃ c, e.GT = some c ∧ Call.isNonRef c = true := by
  cases h : e.GT <;> simp [Entry.nonRefCall, h]

/-- The row-filter predicate unfolded into its logical form. -/
theorem keepRow_iff (r : MTRow) :
    keepRow r = true ↔
      1 < r.alleles.length ∧
        ∃ e ∈ r.entries, ∃ c, e.GT = some c ∧ Call.isNonRef c = true := by
  simp [keepRow, List.any_eq_true, nonRefCall_iff]

theorem tagRow_key (r : MTRow) : (tagRow r).key = r.key := rfl

theorem tagRow_inj {a b : MTRow} (h : tagRow a = tagRow b) : a = b := by
  cases a; cases b
  simp only [tagRow, TaggedRow.mk.injEq] at h
  simp [MTRow.mk.injEq, h.1, h.2.1, h.2.2.1]

/-- Membership in the filtered, tagged rows. -/
theorem mem_filter_rows (mt : MatrixTable) (tr : TaggedRow) :
    tr ∈ (_filter_rows_and_add_tags mt).rows ↔
      ∃ r ∈ mt.rows, keepRow r = true ∧ tr = tagRow r := by
  simp only [_filter_rows_and_add_tags, densify, List.mem_map, List.mem_filter]
  constructor
  · rintro ⟨r, ⟨hm, hk⟩, rfl⟩
    exact ⟨r, hm, hk, rfl⟩
  · rintro ⟨r, hm, hk, rfl⟩
    exact ⟨r, ⟨hm, hk⟩, rfl⟩

/-- The keyed join finds a row exactly when keys are unique and the row is
present. -/
theorem rowsLookup_of_nodup (l : List TaggedRow) (x : TaggedRow)
    (hnd : (l.map TaggedRow.key).Nodup) (hx : x ∈ l) :
    rowsLookup l x.key = some x := by
  induction l with
  | nil => cases hx
  | cons a t ih =>
    rw [List.map_cons, List.nodup_cons] at hnd
    rcases List.mem_cons.mp hx with rfl | hx
    · simp [rowsLookup]
    · have hne : ¬((fun r => r.key == x.key) a = true) := by
        simp only [beq_iff_eq]
        intro he
        exact hnd.1 (he ▸ List.mem_map_of_mem TaggedRow.key hx)
      rw [rowsLookup, List.find?_cons_of_neg t hne]
      exact ih hnd.2 hx

/-- Key uniqueness survives filtering and tagging. -/
theorem filtered_keys_nodup (mt : MatrixTable)
    (h : (mt.rows.map MTRow.key).Nodup) :
    ((_filter_rows_and_add_tags mt).rows.map TaggedRow.key).Nodup := by
  have heq : (_filter_rows_and_add_tags mt).rows.map TaggedRow.key =
      (mt.rows.filter keepRow).map MTRow.key := by
    simp only [_filter_rows_and_add_tags, densify, List.map_map]
    exact List.map_congr_left (fun a _ => rfl)
  rw [heq]
  exact List.Nodup.sublist ((List.filter_sublist mt.rows).map MTRow.key) h

/-- The rows of the sites-only table, written as one map over the filtered
input rows. -/
theorem sites_only_rows_eq (agg : AggModel) (mt : MatrixTable) (n : Nat) :
    (mt_to_sites_only_ht agg mt n).rows =
      (mt.rows.filter keepRow).map (fun r =>
        { key := r.key
          info := { DP := (rowsLookup (_filter_rows_and_add_tags mt).rows
                      r.key).map TaggedRow.site_dp
                    ANS := ansAgg r
                    fields := (agg (_filter_rows_and_add_tags mt) r.key).2.1 }
          rest := (agg (_filter_rows_and_add_tags mt) r.key).2.2 }) := by
  simp only [mt_to_sites_only_ht, adjust_vcf_incompatible_types, _create_info_ht,
    default_compute_info, _filter_rows_and_add_tags, densify, List.map_map]
  rfl

end Lemmas

/-- C1: a row of the input is retained by the row filter (its tagged form
appears among the rows of `_filter_rows_and_add_tags`) iff its allele list
has length greater than one and some sample has a defined, non-reference
genotype call; single-allele rows and rows whose calls are all undefined are
thus excluded. -/
theorem C1_row_filter_iff (mt : MatrixTable) (r : MTRow) :
    tagRow r ∈ (_filter_rows_and_add_tags mt).rows ↔
      r ∈ mt.rows ∧ 1 < r.alleles.length ∧
        ∃ e ∈ r.entries, ∃ c, e.GT = some c ∧ Call.isNonRef c = true := by
  rw [mem_filter_rows]
  constructor
  · rintro ⟨r', hm, hk, heq⟩
    obtain rfl := tagRow_inj heq
    exact ⟨hm, (keepRow_iff _).mp hk⟩
  · rintro ⟨hm, h1, h2⟩
    exact ⟨r, hm, (keepRow_iff r).mpr ⟨h1, h2⟩, rfl⟩

/-- C3: for every retained row, `ANS` equals 2 times the number of samples
whose genotype call is defined at that row. -/
theorem C3_ANS_eq (mt : MatrixTable) (tr : TaggedRow)
    (h : tr ∈ (_filter_rows_and_add_tags mt).rows) :
    tr.ANS = 2 * tr.entries.countP (fun e => e.GT.isSome) := by
  obtain ⟨r, -, -, rfl⟩ := (mem_filter_rows mt tr).mp h
  exact Nat.mul_comm (r.entries.countP Entry.gtDefined) 2

/-- Witness for C3 at the concrete 2-sample table. -/
theorem C3_ANS_eq_witness :
    tagRow exRow ∈ (_filter_rows_and_add_tags exMT).rows ∧
      (tagRow exRow).ANS =
        2 * (tagRow exRow).entries.countP (fun e => e.GT.isSome) :=
  ⟨by decide, C3_ANS_eq exMT (tagRow exRow) (by decide)⟩

/-- C10: every retained row has `ANS` at least 2, since retention requires a
defined non-reference call and `ANS` is twice the defined-call count. -/
theorem C10_ANS_ge_two (mt : MatrixTable) (tr : TaggedRow)
    (h : tr ∈ (_filter_rows_and_add_tags mt).rows) : 2 ≤ tr.ANS := by
  obtain ⟨r, -, hk, rfl⟩ := (mem_filter_rows mt tr).mp h
  obtain ⟨-, e, he, c, hgt, -⟩ := (keepRow_iff r).mp hk
  have hpos : 0 < r.entries.countP Entry.gtDefined :=
    List.countP_pos_iff.mpr ⟨e, he, by simp [Entry.gtDefined, hgt]⟩
  simp only [tagRow, ansAgg]
  omega

/-- Witness for C10 at the concrete 2-sample table. -/
theorem C10_ANS_ge_two_witness :
    tagRow exRow ∈ (_filter_rows_and_add_tags exMT).rows ∧
      2 ≤ (tagRow exRow).ANS :=
  ⟨by decide, C10_ANS_ge_two exMT (tagRow exRow) (by decide)⟩

/-- C2: every row of the sites-only table carries in `info.DP` the sum of the
per-sample depths of its input row, missing depths contributing zero; the
value is the locally computed `site_dp`, independent of whatever DP the
delegated aggregator chose. -/
theorem C2_info_DP (agg : AggModel) (mt : MatrixTable) (n : Nat)
    (hnd : (mt.rows.map MTRow.key).Nodup) :
    ∀ orow ∈ (mt_to_sites_only_ht agg mt n).rows,
      ∃ r ∈ mt.rows, keepRow r = true ∧ orow.key = r.key ∧
        orow.info.DP = some ((r.entries.map (fun e => e.DP.getD 0)).sum) := by
  intro orow hmem
  rw [sites_only_rows_eq] at hmem
  obtain ⟨r, hr, rfl⟩ := List.mem_map.mp hmem
  obtain ⟨hrm, hrk⟩ := List.mem_filter.mp hr
  refine ⟨r, hrm, hrk, rfl, ?_⟩
  have htr : tagRow r ∈ (_filter_rows_and_add_tags mt).rows :=
    (mem_filter_rows mt (tagRow r)).mpr ⟨r, hrm, hrk, rfl⟩
  have hlk := rowsLookup_of_nodup (_filter_rows_and_add_tags mt).rows
    (tagRow r) (filtered_keys_nodup mt hnd) htr
  rw [tagRow_key] at hlk
  simp only [hlk, Option.map_some]
  rfl

/-- Witness for C2 at the concrete 2-sample table. -/
theorem C2_info_DP_witness :
    (exMT.rows.map MTRow.key).Nodup ∧
      exOutRow ∈ (mt_to_sites_only_ht exAgg exMT 1).rows ∧
      ∃ r ∈ exMT.rows, keepRow r = true ∧ exOutRow.key = r.key ∧
        exOutRow.info.DP = some ((r.entries.map (fun e => e.DP.getD 0)).sum) :=
  ⟨by decide, by decide, C2_info_DP exAgg exMT 1 (by decide) exOutRow (by decide)⟩

/-- C4: the 2-sample scenario: one row with alleles A and G, depths 10 and
20, both calls defined and non-reference; the pipeline retains exactly that
row and the exported record has DP 30 and ANS 4. -/
theorem C4_scenario (agg : AggModel) (n : Nat) :
    ∃ v, (export_sites_only_vcf agg exMT "output.vcf" n).2 = [v] ∧
      v.chrom = "chr1" ∧ v.pos = 123 ∧ v.ref = "A" ∧ v.alt = ["G"] ∧
      v.info.DP = some 30 ∧ v.info.ANS = 4 := by
  exact ⟨_, rfl, rfl, rfl, rfl, rfl, rfl, rfl⟩

/-- C5: the partition count changes only the physical partitioning of the
sites-only table, never its row content. -/
theorem C5_partitions_content (agg : AggModel) (mt : MatrixTable)
    (n1 n2 : Nat) :
    (mt_to_sites_only_ht agg mt n1).rows = (mt_to_sites_only_ht agg mt n2).rows ∧
      (mt_to_sites_only_ht agg mt n1).nPartitions = n1 ∧
      (mt_to_sites_only_ht agg mt n2).nPartitions = n2 :=
  ⟨rfl, rfl, rfl⟩

/-- C6: re-parsing the exported variant-call records yields exactly the
(locus, allele-list) keys of the rows retained by the row filter on the
input. -/
theorem C6_roundtrip (agg : AggModel) (mt : MatrixTable)
    (output_path : String) (n : Nat) :
    (export_sites_only_vcf agg mt output_path n).2.map parseRecordKey =
      (mt.rows.filter keepRow).map MTRow.key := by
  have h1 : (export_sites_only_vcf agg mt output_path n).2 =
      export_vcf (mt_to_sites_only_ht agg mt n) := rfl
  rw [h1, export_vcf, sites_only_rows_eq, List.map_map, List.map_map]
  apply List.map_congr_left
  intro r hr
  have h1lt : 1 < r.alleles.length :=
    ((keepRow_iff r).mp (List.mem_filter.mp hr).2).1
  cases halle : r.alleles with
  | nil => rw [halle] at h1lt; simp at h1lt
  | cons a as => simp [parseRecordKey, MTRow.key, Function.comp, halle]

/-- C7: the DP overwrite changes only `info.DP`: row for row, the key, the
other info fields and the non-info row fields of the delegated aggregator's
output are unchanged, and so is the partition count. -/
theorem C7_frame (agg : AggModel) (mt : TaggedMT) (n : Nat) :
    (_create_info_ht agg mt n).nPartitions =
        (default_compute_info agg mt true n).nPartitions ∧
      List.Forall₂ (fun a b => b.key = a.key ∧ b.info.ANS = a.info.ANS ∧
          b.info.fields = a.info.fields ∧ b.rest = a.rest)
        (default_compute_info agg mt true n).rows
        (_create_info_ht agg mt n).rows := by
  refine ⟨rfl, ?_⟩
  have heq : (_create_info_ht agg mt n).rows =
      (default_compute_info agg mt true n).rows.map (fun r =>
        { r with info := { r.info with
            DP := (rowsLookup mt.rows r.key).map TaggedRow.site_dp } }) := rfl
  rw [heq, List.forall₂_map_right_iff]
  exact List.forall₂_same.mpr (fun x _ => ⟨rfl, rfl, rfl, rfl⟩)

/-- C8: when validation of the `--mt` option fails, the command reports a
usage error; the outcome is that usage error whatever the stored tables hold,
so no matrix table is loaded and no transformation runs. -/
theorem C8_validation_aborts (agg : AggModel) (existing : List String)
    (tables : String → MatrixTable)
    (mt_path output_path local_tmp_dir : String) ( overwrite : Bool)
    (hail_billing : String) (n : Nat)
    (h : validateMtPath existing mt_path = false) :
    main agg existing tables mt_path output_path local_tmp_dir overwrite
        hail_billing n =
      CliOutcome.usageError
        "--mt: path does not exist or lacks the .mt extension" := by
  simp [main, h]

/-- Witness for C8: a path without the mt extension on an empty filesystem. -/
theorem C8_validation_aborts_witness :
    validateMtPath [] "input.vcf" = false ∧
      main exAgg [] (fun _ => exMT) "input.vcf" "output.vcf" "tmpdir" false
          "billing-account" 1 =
        CliOutcome.usageError
          "--mt: path does not exist or lacks the .mt extension" :=
  ⟨by decide, C8_validation_aborts exAgg [] (fun _ => exMT) "input.vcf"
    "output.vcf" "tmpdir" false "billing-account" 1 (by decide)⟩

/-- C9: two runs differing only in the overwrite/reuse flag and the billing
account produce identical outcomes: neither option is consumed by the
transformation logic. -/
theorem C9_unused_options (agg : AggModel) (existing : List String)
    (tables : String → MatrixTable)
    (mt_path output_path local_tmp_dir : String) (ow1 ow2 : Bool)
    (bill1 bill2 : String) (n : Nat) :
    main agg existing tables mt_path output_path local_tmp_dir ow1 bill1 n =
      main agg existing tables mt_path output_path local_tmp_dir ow2 bill2 n :=
  rfl

end MtToVcf
